import Mathlib

/-!
# rundk: the local launcher of the containerised test runner

A shallow embedding of `rundk/main.go` (functions `main`, `setup`, `run`) and of the
library functions it calls, followed by the properties of the container invocation it
builds, of its fatal exits and of its cleanup function.

Effects are made explicit: every function that touches the outside world returns the
list of `Event`s it caused, and everything the outside world decides (the environment,
whether a directory or an overlay can be created, what the child process returns) is a
field of `Host`.
-/

namespace rundk

/-! ## Standard library functions used by main.go -/

/-- The process environment, as the entries of `os.Environ`; the first entry of a name wins. -/
abbrev Environ := List (String × String)

namespace os

/-- Go `os.Getenv`: the value of the variable named by `key`, and the empty string when the
variable is not present (the empty key is never present: `syscall.Getenv` rejects it). -/
def Getenv (environ : Environ) (key : String) : String :=
  if key = "" then "" else (environ.lookup key).getD ""

end os

namespace strings

/-- The pieces of a character list between the occurrences of `sep`; an empty list has
the single empty piece. -/
def splitChars (sep : Char) : List Char → List (List Char)
  | [] => [[]]
  | c :: cs =>
    if c = sep then [] :: splitChars sep cs
    else
      match splitChars sep cs with
      | [] => [[c]]
      | w :: ws => (c :: w) :: ws

/-- Go `strings.Split(s, sep)` for a one-character separator: `s` cut at every `sep`;
`Split "" sep` is the one-element list holding the empty string. -/
def Split (s : String) (sep : Char) : List String :=
  (splitChars sep s.data).map String.mk

end strings

namespace path

/-- The elements of a slash-separated path after the rewriting rules of Go `path.Clean`:
empty elements and `.` are dropped, `..` removes the element before it, is dropped at the
root of a rooted path and is kept in front of a relative one. `acc` is the reversed output. -/
def cleanElems (rooted : Bool) (acc : List (List Char)) : List (List Char) → List (List Char)
  | [] => acc.reverse
  | e :: es =>
    if e = [] ∨ e = ['.'] then cleanElems rooted acc es
    else if e = ['.', '.'] then
      match acc with
      | [] => if rooted then cleanElems rooted [] es else cleanElems rooted [['.', '.']] es
      | top :: below =>
        if top = ['.', '.'] then cleanElems rooted (['.', '.'] :: acc) es
        else cleanElems rooted below es
    else cleanElems rooted (e :: acc) es

/-- Go `path.Clean`: the shortest path equivalent to `p`; `"."` for the empty result. -/
def Clean (p : String) : String :=
  let rooted : Bool := p.data.head? = some '/'
  let elems := cleanElems rooted [] (strings.splitChars '/' p.data)
  let body : List Char := List.intercalate ['/'] elems
  if rooted then String.mk ('/' :: body)
  else if body = [] then "." else String.mk body

/-- Go `path.Join`: the non-empty elements joined by slashes and cleaned; the empty
string when every element is empty. -/
def Join (elem : List String) : String :=
  match elem.filter (fun e => e ≠ "") with
  | [] => ""
  | es => Clean (String.mk (List.intercalate ['/'] (es.map String.data)))

/-- Go `path.IsAbs`: the path begins with a slash. -/
def IsAbs (p : String) : Bool :=
  p.data.head? = some '/'

end path

/-! ## Package interactive (the invocation builder) -/

namespace interactive

/-- Go `interactive.Env`, a `map[string]string` kept as an association list with unique keys. -/
abbrev Env := List (String × String)

/-- Map assignment `e[k] = v`. -/
def Env.set (e : Env) (k v : String) : Env :=
  (k, v) :: e.filter (fun kv => kv.1 ≠ k)

/-- Map lookup `e[k]`. -/
def Env.get? (e : Env) (k : String) : Option String :=
  e.lookup k

/-- What one call of the binder does: the map it leaves, the names it found absent, and the
names it looked up in the host environment, in the order of the lookups. -/
structure Promotion where
  envs : Env
  missing : List String
  lookups : List String
deriving DecidableEq, Repr

/-- Modelled from the spec: the Environment Binder of section 4.1, `Env.PromoteFromEnv` of
package interactive, which is not part of the sources at hand. Each name is looked up in the
host environment; a name that is present is included with its host value, a name that is absent
(`os.Getenv` gives the empty string) is skipped and reported. The result is the map, the names
that were absent and the lookups made: the Go function returns a non-nil error exactly when a
name was absent. `setup` calls it twice, checking the error for the mandatory names and dropping
it for the optional ones, so an absent name cannot end the loop: the names after it are still
looked up. No name is filtered out before its lookup. -/
def Env.PromoteFromEnv (environ : Environ) (e : Env) : List String → Promotion
  | [] => { envs := e, missing := [], lookups := [] }
  | name :: rest =>
    if os.Getenv environ name = "" then
      { envs := (Env.PromoteFromEnv environ e rest).envs,
        missing := name :: (Env.PromoteFromEnv environ e rest).missing,
        lookups := name :: (Env.PromoteFromEnv environ e rest).lookups }
    else
      { envs := (Env.PromoteFromEnv environ (e.set name (os.Getenv environ name)) rest).envs,
        missing := (Env.PromoteFromEnv environ (e.set name (os.Getenv environ name)) rest).missing,
        lookups := name ::
          (Env.PromoteFromEnv environ (e.set name (os.Getenv environ name)) rest).lookups }

/-- A mount specification of section 3: kind (`bind` or `rw-overlay`), source, destination. -/
structure MountSpec where
  kind : String
  source : String
  destination : String
deriving DecidableEq, Repr

/-- One argument group of the invocation, in the order the builder was called. -/
inductive ArgGroup
  | mount (m : MountSpec)
  | envs (e : Env)
  | arg (token : String)
deriving DecidableEq, Repr

/-- Go `interactive.Docker`: the invocation under construction. -/
structure Docker where
  Args : List ArgGroup
  LogFile : String
deriving DecidableEq, Repr

/-- Modelled from the spec: `NewDocker` of package interactive, the empty invocation of the
container runtime; `preset` are the runtime's own leading arguments, which the spec leaves open. -/
def NewDocker (preset : List String) : Docker :=
  { Args := preset.map ArgGroup.arg, LogFile := "" }

/-- Modelled from the spec: `AddArgs` of package interactive; section 4.3, arguments are
accumulated in strict call order. -/
def Docker.AddArgs (d : Docker) (args : List String) : Docker :=
  { d with Args := d.Args ++ args.map ArgGroup.arg }

/-- Modelled from the spec: `AddMount` of package interactive; section 4.2, a mount
specification is appended unconditionally, without an existence check. -/
def Docker.AddMount (d : Docker) (typeStr source target : String) : Docker :=
  { d with Args := d.Args ++ [ArgGroup.mount ⟨typeStr, source, target⟩] }

/-- Modelled from the spec: `AddEnv` of package interactive; section 4.3, the environment
flags derived from the environment map are one argument group. -/
def Docker.AddEnv (d : Docker) (e : Env) : Docker :=
  { d with Args := d.Args ++ [ArgGroup.envs e] }

/-- The mount specifications of an invocation, in argument order. -/
def Docker.mounts (d : Docker) : List MountSpec :=
  d.Args.filterMap (fun g => match g with
    | ArgGroup.mount m => some m
    | _ => none)

/-- The environment maps attached to an invocation. -/
def Docker.envMaps (d : Docker) : List Env :=
  d.Args.filterMap (fun g => match g with
    | ArgGroup.envs e => some e
    | _ => none)

end interactive

open interactive

/-! ## Effects -/

/-- A registered cleanup action: a Go `func()` closure, named by what it does when called. -/
inductive CleanupAction
  | overlayTeardown (source destination : String)
  | artifactsMessage (dir : String)
deriving DecidableEq, Repr

/-- The fatal setup errors of section 7; each ends the process through `log.Fatalf`. -/
inductive FatalError
  | MissingMandatoryVariable (names : List String)
  | TempDirCreationFailed
  | RepoRootResolutionFailed
  | OverlayCreationFailed (source destination : String)
deriving DecidableEq, Repr

/-- What the program does to the outside world, in the order it does it. -/
inductive Event
  | promote (names : List String)
  | getenv (name : String)
  | tempDir (dir : String)
  | print (text : String)
  | rootDir
  | overlay (source destination : String)
  | pull (image : String) (ok : Bool)
  | printCmd (cmd : Docker)
  | sleep (seconds : Nat)
  | exec (cmd : Docker)
  | cleanup (action : CleanupAction)
deriving DecidableEq, Repr

/-- Everything the outside world decides during one run. -/
structure Host where
  /-- the process environment -/
  environ : Environ
  /-- the leading arguments `NewDocker` starts from -/
  preset : List String
  /-- result of `ioutil.TempDir("", "prow-docker.")`; `none` is an error -/
  tempDir : Option String
  /-- result of `helpers.GetRootDir()`; `none` is an error -/
  rootDir : Option String
  /-- whether the overlay of a source at a destination can be created -/
  overlayOk : String → String → Bool
  /-- whether `docker pull` succeeds -/
  pullOk : Bool
  /-- the error `cmd.Run()` returns for an invocation; `none` is the nil error -/
  dockerRun : Docker → Option String
  /-- whether a cleanup action panics when called -/
  panics : CleanupAction → Bool

namespace ioutil

/-- Go `ioutil.TempDir("", "prow-docker.")`: the fresh directory the host creates, or an error. -/
def TempDir (h : Host) : Option String :=
  h.tempDir

end ioutil

namespace helpers

/-- Modelled from the spec: `GetRootDir` of package helpers, which is not part of the sources
at hand; section 1, a function returning the path of the host repository root or failing. -/
def GetRootDir (h : Host) : Option String :=
  h.rootDir

end helpers

/-- Modelled from the spec: `AddRWOverlay` of package interactive; section 4.2. The overlay is
created (a failure is fatal to the run: `none`), its mount specification is registered, and the
action that tears the overlay down is returned. -/
def interactive.Docker.AddRWOverlay (h : Host) (d : Docker)
    (externalDirectory internalDirectory : String) : Option (Docker × CleanupAction) :=
  if h.overlayOk externalDirectory internalDirectory then
    some ({ d with Args := d.Args ++
              [ArgGroup.mount ⟨"rw-overlay", externalDirectory, internalDirectory⟩] },
          CleanupAction.overlayTeardown externalDirectory internalDirectory)
  else none

/-! ## main.go -/

/-- Default of the flag `--test-image`. -/
def defaultTestImage : String := "gcr.io/knative-tests/test-infra/prow-tests:stable"

/-- Default of the flag `--mounts`. -/
def defaultMounts : String := ""

/-- Default of the flag `--mandatory-env-vars`. -/
def defaultMandatoryEnvVars : String := "GOOGLE_APPLICATION_CREDENTIALS"

/-- Default of the flag `--optional-env-vars`. -/
def defaultOptionalEnvVars : String := ""

/-- How `setup` ends: `fatal` is a call of `log.Fatalf`, which ends the process with status 1
and gives the caller nothing; `ok` is the normal return of the invocation and of the closure
over `builtUpDefers`. Both carry the effects up to that point. -/
inductive SetupOutcome
  | fatal (err : FatalError) (trace : List Event)
  | ok (cmd : Docker) (builtUpDefers : List CleanupAction) (trace : List Event)
deriving DecidableEq, Repr

/-- The effects of an outcome. -/
def SetupOutcome.trace : SetupOutcome → List Event
  | SetupOutcome.fatal _ t => t
  | SetupOutcome.ok _ _ t => t

/-- What `setup` returns to its caller: nothing after a fatal exit. -/
def SetupOutcome.returned : SetupOutcome → Option (Docker × List CleanupAction)
  | SetupOutcome.fatal _ _ => none
  | SetupOutcome.ok cmd defers _ => some (cmd, defers)

/-- The loop `for _, m := range mounts { cmd.AddMount("bind", m, m) }` of `setup`. -/
def addUserMounts (cmd : Docker) : List String → Docker
  | [] => cmd
  | m :: rest => addUserMounts (cmd.AddMount "bind" m m) rest

/-- The value of `extArtifacts` after the test `len(extArtifacts) == 0` of `setup`. -/
def artifactsDir (environ : Environ) (tmpDir : String) : String :=
  if (os.Getenv environ "ARTIFACTS").length = 0 then tmpDir else os.Getenv environ "ARTIFACTS"

/-- Go `setup` of main.go. -/
def setup (h : Host) (image : String)
    (mounts mandatoryEnvVars optionalEnvVars : List String) : SetupOutcome :=
  let builtUpDefers : List CleanupAction := []
  let envs : Env := []
  -- envs.PromoteFromEnv(mandatoryEnvVars...)
  let mandatory := Env.PromoteFromEnv h.environ envs mandatoryEnvVars
  let t1 : List Event := Event.promote mandatoryEnvVars :: mandatory.lookups.map Event.getenv
  if mandatory.missing ≠ [] then
    SetupOutcome.fatal (FatalError.MissingMandatoryVariable mandatory.missing) t1
  else
    -- envs.PromoteFromEnv(optionalEnvVars...), the error is not checked
    let optional := Env.PromoteFromEnv h.environ mandatory.envs optionalEnvVars
    let envs := optional.envs
    let t2 := t1 ++ Event.promote optionalEnvVars :: optional.lookups.map Event.getenv
    match ioutil.TempDir h with
    | none => SetupOutcome.fatal FatalError.TempDirCreationFailed t2
    | some tmpDir =>
      let t3 := t2 ++ [Event.tempDir tmpDir, Event.print ("Logging to " ++ tmpDir ++ "\n")]
      let cmd := NewDocker h.preset
      let cmd := { cmd with LogFile := path.Join [tmpDir, "build-log.txt"] }
      let cmd := addUserMounts cmd mounts
      match helpers.GetRootDir h with
      | none => SetupOutcome.fatal FatalError.RepoRootResolutionFailed (t3 ++ [Event.rootDir])
      | some repoRoot =>
        let t4 := t3 ++ [Event.rootDir]
        match cmd.AddRWOverlay h repoRoot repoRoot with
        | none => SetupOutcome.fatal (FatalError.OverlayCreationFailed repoRoot repoRoot) t4
        | some (cmd, cancel) =>
          let builtUpDefers := builtUpDefers ++ [cancel]
          let t5 := t4 ++ [Event.overlay repoRoot repoRoot, Event.getenv "HOME"]
          let kube := path.Join [os.Getenv h.environ "HOME", ".kube"]
          match cmd.AddRWOverlay h kube "/root/.kube" with
          | none =>
            SetupOutcome.fatal (FatalError.OverlayCreationFailed kube "/root/.kube") t5
          | some (cmd, cancel) =>
            let builtUpDefers := builtUpDefers ++ [cancel]
            let t6 := t5 ++ [Event.overlay kube "/root/.kube"]
            let cmd := cmd.AddArgs ["-w=" ++ repoRoot]
            let t7 := t6 ++ [Event.getenv "ARTIFACTS"] ++
              (if (os.Getenv h.environ "ARTIFACTS").length = 0 then
                [Event.print ("Setting local ARTIFACTS directory to " ++ tmpDir)] else [])
            let extArtifacts := artifactsDir h.environ tmpDir
            let cmd := cmd.AddMount "bind" extArtifacts extArtifacts
            let envs := envs.set "ARTIFACTS" extArtifacts
            let builtUpDefers := builtUpDefers ++ [CleanupAction.artifactsMessage extArtifacts]
            let cmd := cmd.AddEnv envs
            -- pull.Run(), the error is not checked
            let t8 := t7 ++ [Event.pull image h.pullOk]
            SetupOutcome.ok cmd builtUpDefers t8

/-- The closure `setup` returns: `for _, ff := range builtUpDefers { ff() }`. The result is the
actions called, in order, and whether the loop was left by a panic: a panicking call is not
recovered, so the actions after it are not called. -/
def cancel (panics : CleanupAction → Bool) : List CleanupAction → List Event × Bool
  | [] => ([], false)
  | ff :: rest =>
    if panics ff then ([Event.cleanup ff], true)
    else (Event.cleanup ff :: (cancel panics rest).1, (cancel panics rest).2)

/-- The invocation `run` executes: `cmd` with the image, the entrypoint and the arguments added. -/
def runCmd (cmd : Docker) (image : String) (commandAndArgsOpt : List String) : Docker :=
  ((cmd.AddArgs [image]).AddArgs ["runner.sh"]).AddArgs commandAndArgsOpt

/-- Go `run` of main.go: the returned error (`none` is nil) and the effects. -/
def run (h : Host) (cmd : Docker) (image : String) (commandAndArgsOpt : List String) :
    Option String × List Event :=
  let cmd := runCmd cmd image commandAndArgsOpt
  (h.dockerRun cmd,
    [Event.printCmd cmd, Event.print "Starting in 3 seconds, ^C to abort!\n", Event.sleep 3,
      Event.exec cmd])

/-- How the process ends. -/
structure ProcessResult where
  exitCode : Nat
  trace : List Event
deriving DecidableEq, Repr

/-- Go `main` of main.go, from the parsed flag values and `flag.Args()`. A fatal setup ends the
process with status 1; otherwise `run` is called, its result dropped, and the deferred `cancel`
runs when `main` returns: status 0, or 2 when a cleanup action panics. -/
def main (h : Host) (image mounts mandatoryEnvVars optionalEnvVars : String)
    (args : List String) : ProcessResult :=
  match setup h image (strings.Split mounts ',') (strings.Split mandatoryEnvVars ',')
      (strings.Split optionalEnvVars ',') with
  | SetupOutcome.fatal _ t => { exitCode := 1, trace := t }
  | SetupOutcome.ok cmd builtUpDefers t =>
    let r := run h cmd image args
    let c := cancel h.panics builtUpDefers
    { exitCode := if c.2 then 2 else 0, trace := t ++ r.2 ++ c.1 }

/-- A workstation on which everything succeeds. -/
def okHost : Host :=
  { environ := [("GOOGLE_APPLICATION_CREDENTIALS", "/home/u/key.json"), ("HOME", "/home/u")],
    preset := ["run"],
    tempDir := some "/tmp/prow-docker.1",
    rootDir := some "/home/u/repo",
    overlayOk := fun _ _ => true,
    pullOk := true,
    dockerRun := fun _ => none,
    panics := fun _ => false }

/-- The argument groups `setup` adds after the user mounts. -/
def setupTail (environ : Environ) (envs : Env) (tmpDir repoRoot : String) : List ArgGroup :=
  [ArgGroup.mount ⟨"rw-overlay", repoRoot, repoRoot⟩,
   ArgGroup.mount ⟨"rw-overlay", path.Join [os.Getenv environ "HOME", ".kube"], "/root/.kube"⟩,
   ArgGroup.arg ("-w=" ++ repoRoot),
   ArgGroup.mount ⟨"bind", artifactsDir environ tmpDir, artifactsDir environ tmpDir⟩,
   ArgGroup.envs (envs.set "ARTIFACTS" (artifactsDir environ tmpDir))]

/-- The environment map after both calls of the binder. -/
def promoted (environ : Environ) (mandatoryEnvVars optionalEnvVars : List String) : Env :=
  (Env.PromoteFromEnv environ (Env.PromoteFromEnv environ [] mandatoryEnvVars).envs
    optionalEnvVars).envs

/-- The invocation `setup` builds on `okHost` for the user mount `/a/path`. -/
def okCmd : Docker :=
  { Args := [ArgGroup.arg "run",
      ArgGroup.mount ⟨"bind", "/a/path", "/a/path"⟩,
      ArgGroup.mount ⟨"rw-overlay", "/home/u/repo", "/home/u/repo"⟩,
      ArgGroup.mount ⟨"rw-overlay", "/home/u/.kube", "/root/.kube"⟩,
      ArgGroup.arg "-w=/home/u/repo",
      ArgGroup.mount ⟨"bind", "/tmp/prow-docker.1", "/tmp/prow-docker.1"⟩,
      ArgGroup.envs [("ARTIFACTS", "/tmp/prow-docker.1"),
        ("GOOGLE_APPLICATION_CREDENTIALS", "/home/u/key.json")]],
    LogFile := "/tmp/prow-docker.1/build-log.txt" }

/-- The cleanup actions `setup` registers on `okHost`. -/
def okDefers : List CleanupAction :=
  [CleanupAction.overlayTeardown "/home/u/repo" "/home/u/repo",
   CleanupAction.overlayTeardown "/home/u/.kube" "/root/.kube",
   CleanupAction.artifactsMessage "/tmp/prow-docker.1"]

/-- The effects of `setup` on `okHost` up to the image pull; `pulled` is the pull's result. -/
def okTrace (pulled : Bool) : List Event :=
  [Event.promote ["GOOGLE_APPLICATION_CREDENTIALS"],
   Event.getenv "GOOGLE_APPLICATION_CREDENTIALS",
   Event.promote [""],
   Event.getenv "",
   Event.tempDir "/tmp/prow-docker.1",
   Event.print "Logging to /tmp/prow-docker.1\n",
   Event.rootDir,
   Event.overlay "/home/u/repo" "/home/u/repo",
   Event.getenv "HOME",
   Event.overlay "/home/u/.kube" "/root/.kube",
   Event.getenv "ARTIFACTS",
   Event.print "Setting local ARTIFACTS directory to /tmp/prow-docker.1",
   Event.pull "img" pulled]

/-- A workstation whose environment lacks the credential variable. -/
def noCredentialsHost : Host :=
  { okHost with environ := [("HOME", "/home/u")] }

/-- A workstation on which the teardown of the repository overlay panics. -/
def panicHost : Host :=
  { okHost with
    panics := fun a => a = CleanupAction.overlayTeardown "/home/u/repo" "/home/u/repo" }

/-- A workstation on which the child container invocation fails. -/
def failingChildHost : Host :=
  { okHost with dockerRun := fun _ => some "exit status 1" }

/-! ## Auxiliary facts -/

theorem PromoteFromEnv_lookups (environ : Environ) (e : Env) (names : List String) :
    (Env.PromoteFromEnv environ e names).lookups = names := by
  induction names generalizing e with
  | nil => rfl
  | cons name rest ih =>
    unfold Env.PromoteFromEnv
    split
    · simp [ih]
    · simp [ih]

theorem addUserMounts_Args (cmd : Docker) (mounts : List String) :
    (addUserMounts cmd mounts).Args =
      cmd.Args ++ mounts.map (fun m => ArgGroup.mount ⟨"bind", m, m⟩) := by
  induction mounts generalizing cmd with
  | nil => simp [addUserMounts]
  | cons m rest ih => simp [addUserMounts, ih, Docker.AddMount]

theorem addUserMounts_LogFile (cmd : Docker) (mounts : List String) :
    (addUserMounts cmd mounts).LogFile = cmd.LogFile := by
  induction mounts generalizing cmd with
  | nil => simp [addUserMounts]
  | cons m rest ih => simp [addUserMounts, ih, Docker.AddMount]

theorem setup_ok_inv {h : Host} {image : String} {mounts mandatoryEnvVars optionalEnvVars : List String}
    {cmd : Docker} {defers : List CleanupAction} {tr : List Event}
    (hs : setup h image mounts mandatoryEnvVars optionalEnvVars = SetupOutcome.ok cmd defers tr) :
    ∃ tmpDir repoRoot, h.tempDir = some tmpDir ∧ h.rootDir = some repoRoot ∧
      (Env.PromoteFromEnv h.environ [] mandatoryEnvVars).missing = [] ∧
      cmd.Args = h.preset.map ArgGroup.arg ++
        mounts.map (fun m => ArgGroup.mount ⟨"bind", m, m⟩) ++
        setupTail h.environ (promoted h.environ mandatoryEnvVars optionalEnvVars) tmpDir repoRoot ∧
      defers = [CleanupAction.overlayTeardown repoRoot repoRoot,
        CleanupAction.overlayTeardown (path.Join [os.Getenv h.environ "HOME", ".kube"]) "/root/.kube",
        CleanupAction.artifactsMessage (artifactsDir h.environ tmpDir)] ∧
      Event.promote mandatoryEnvVars ∈ tr ∧ Event.promote optionalEnvVars ∈ tr ∧
      Event.pull image h.pullOk ∈ tr ∧
      ∀ n, n ∈ mandatoryEnvVars ∨ n ∈ optionalEnvVars → Event.getenv n ∈ tr := by
  unfold setup at hs
  simp only [] at hs
  split at hs
  · exact absurd hs (by simp)
  · rename_i hm
    split at hs
    · exact absurd hs (by simp)
    · rename_i tmpDir htmp
      split at hs
      · exact absurd hs (by simp)
      · rename_i repoRoot hroot
        split at hs
        · exact absurd hs (by simp)
        · rename_i cmd1 cancel1 ho1
          split at hs
          · exact absurd hs (by simp)
          · rename_i cmd2 cancel2 ho2
            simp only [Docker.AddRWOverlay] at ho1 ho2
            split at ho1
            · split at ho2
              · simp only [Option.some.injEq, Prod.mk.injEq] at ho1 ho2
                obtain ⟨rfl, rfl⟩ := ho1
                obtain ⟨rfl, rfl⟩ := ho2
                simp only [SetupOutcome.ok.injEq] at hs
                obtain ⟨rfl, rfl, rfl⟩ := hs
                refine ⟨tmpDir, repoRoot, htmp, hroot, ?_, ?_, ?_, ?_, ?_, ?_, ?_⟩
                · simpa using hm
                · simp [Docker.AddEnv, Docker.AddMount, Docker.AddArgs, addUserMounts_Args,
                    NewDocker, setupTail, promoted]
                · simp
                · simp
                · simp
                · simp
                · intro n hn
                  rcases hn with hn | hn
                  · simp [PromoteFromEnv_lookups, hn]
                  · simp [PromoteFromEnv_lookups, hn]
              · exact absurd ho2 (by simp)
            · exact absurd ho1 (by simp)

theorem setup_returned_pull (h : Host) (b : Bool) (image : String)
    (mounts mandatoryEnvVars optionalEnvVars : List String) :
    (setup { h with pullOk := b } image mounts mandatoryEnvVars optionalEnvVars).returned =
      (setup h image mounts mandatoryEnvVars optionalEnvVars).returned := by
  unfold setup
  simp only [Docker.AddRWOverlay, ioutil.TempDir, helpers.GetRootDir]
  repeat' split
  all_goals simp_all [SetupOutcome.returned]

theorem okSetup_eq :
    setup okHost "img" ["/a/path"] ["GOOGLE_APPLICATION_CREDENTIALS"] [""] =
      SetupOutcome.ok okCmd okDefers (okTrace true) := by
  decide

theorem length_eq_zero_iff (s : String) : s.length = 0 ↔ s = "" := by
  cases s with
  | mk data => simp [String.length, String.ext_iff]

theorem artifactsDir_of_set {environ : Environ} (tmpDir : String)
    (hset : os.Getenv environ "ARTIFACTS" ≠ "") :
    artifactsDir environ tmpDir = os.Getenv environ "ARTIFACTS" := by
  simp [artifactsDir, length_eq_zero_iff, hset]

theorem artifactsDir_of_unset {environ : Environ} (tmpDir : String)
    (hunset : os.Getenv environ "ARTIFACTS" = "") :
    artifactsDir environ tmpDir = tmpDir := by
  simp [artifactsDir, length_eq_zero_iff, hunset]

theorem get?_set_self (e : Env) (k v : String) : (e.set k v).get? k = some v := by
  simp [Env.set, Env.get?, List.lookup]

theorem filterMap_const_none {α β : Type} (l : List α) :
    l.filterMap (fun _ => (none : Option β)) = [] := by
  induction l with
  | nil => rfl
  | cons a l ih => simp [List.filterMap_cons, ih]

theorem filterMap_some_fun {α β : Type} (f : α → β) (l : List α) :
    l.filterMap (fun x => some (f x)) = l.map f := by
  induction l with
  | nil => rfl
  | cons a l ih => simp [List.filterMap_cons, ih]

theorem mounts_of_setup_args (d : Docker) (preset mounts : List String) (tail : List ArgGroup)
    (hd : d.Args = preset.map ArgGroup.arg ++
      mounts.map (fun m => ArgGroup.mount ⟨"bind", m, m⟩) ++ tail) :
    d.mounts = mounts.map (fun m => (⟨"bind", m, m⟩ : MountSpec)) ++
      tail.filterMap (fun g => match g with
        | ArgGroup.mount m => some m
        | _ => none) := by
  simp [Docker.mounts, hd, List.filterMap_append, List.filterMap_map, Function.comp_def,
    filterMap_const_none, filterMap_some_fun]

theorem setup_mounts {h : Host} {image : String}
    {mounts mandatoryEnvVars optionalEnvVars : List String}
    {cmd : Docker} {defers : List CleanupAction} {tr : List Event}
    (hs : setup h image mounts mandatoryEnvVars optionalEnvVars = SetupOutcome.ok cmd defers tr) :
    ∃ tmpDir repoRoot, h.tempDir = some tmpDir ∧ h.rootDir = some repoRoot ∧
      cmd.mounts = mounts.map (fun m => (⟨"bind", m, m⟩ : MountSpec)) ++
        [⟨"rw-overlay", repoRoot, repoRoot⟩,
         ⟨"rw-overlay", path.Join [os.Getenv h.environ "HOME", ".kube"], "/root/.kube"⟩,
         ⟨"bind", artifactsDir h.environ tmpDir, artifactsDir h.environ tmpDir⟩] := by
  obtain ⟨tmpDir, repoRoot, ht, hr, -, hargs, -⟩ := setup_ok_inv hs
  refine ⟨tmpDir, repoRoot, ht, hr, ?_⟩
  rw [mounts_of_setup_args cmd h.preset mounts _ hargs]
  simp [setupTail]

theorem Getenv_of_absent (environ : Environ) (name : String)
    (habsent : environ.lookup name = none) : os.Getenv environ name = "" := by
  simp [os.Getenv, habsent]

theorem PromoteFromEnv_missing_mem (environ : Environ) (e : Env) (names : List String) (n : String) :
    n ∈ (Env.PromoteFromEnv environ e names).missing ↔
      n ∈ names ∧ os.Getenv environ n = "" := by
  induction names generalizing e with
  | nil => simp [Env.PromoteFromEnv]
  | cons name rest ih =>
    unfold Env.PromoteFromEnv
    split
    · rename_i hname
      simp only [List.mem_cons, ih]
      constructor
      · rintro (rfl | ⟨hm, hg⟩)
        · exact ⟨Or.inl rfl, hname⟩
        · exact ⟨Or.inr hm, hg⟩
      · rintro ⟨rfl | hm, hg⟩
        · exact Or.inl rfl
        · exact Or.inr ⟨hm, hg⟩
    · rename_i hname
      rw [ih]
      constructor
      · rintro ⟨hm, hg⟩
        exact ⟨List.mem_cons_of_mem _ hm, hg⟩
      · rintro ⟨hm, hg⟩
        rcases List.mem_cons.mp hm with rfl | hm
        · exact absurd hg hname
        · exact ⟨hm, hg⟩

theorem setup_fatal_of_missing (h : Host) (image : String)
    (mounts mandatoryEnvVars optionalEnvVars : List String)
    (hmiss : (Env.PromoteFromEnv h.environ [] mandatoryEnvVars).missing ≠ []) :
    setup h image mounts mandatoryEnvVars optionalEnvVars =
      SetupOutcome.fatal
        (FatalError.MissingMandatoryVariable
          (Env.PromoteFromEnv h.environ [] mandatoryEnvVars).missing)
        (Event.promote mandatoryEnvVars :: mandatoryEnvVars.map Event.getenv) := by
  unfold setup
  simp [hmiss, PromoteFromEnv_lookups]

theorem IsAbs_ne_empty (p : String) (hp : path.IsAbs p = true) : p ≠ "" := by
  intro he
  rw [he] at hp
  exact absurd hp (by decide)

theorem Clean_IsAbs (p : String) (hp : path.IsAbs p = true) : path.IsAbs (path.Clean p) = true := by
  unfold path.IsAbs at hp
  unfold path.Clean
  simp only [hp]
  simp [path.IsAbs]

theorem Join_kube_IsAbs (home : String) (hp : path.IsAbs home = true) :
    path.IsAbs (path.Join [home, ".kube"]) = true := by
  have hne : home ≠ "" := IsAbs_ne_empty home hp
  have hk : (".kube" : String) ≠ "" := by decide
  have hf : [home, ".kube"].filter (fun e => e ≠ "") = [home, ".kube"] := by
    simp [List.filter, hne, hk]
  unfold path.Join
  rw [hf]
  apply Clean_IsAbs
  cases home with
  | mk data =>
    cases data with
    | nil => exact absurd rfl hne
    | cons c cs =>
      simp only [path.IsAbs, List.head?_cons, decide_eq_true_eq, Option.some.injEq] at hp
      subst hp
      simp [path.IsAbs, List.intercalate, List.intersperse]

theorem lookup_filter_ne (e : Env) (k name : String) (hne : k ≠ name) :
    (e.filter (fun kv => kv.1 ≠ name)).lookup k = e.lookup k := by
  induction e with
  | nil => rfl
  | cons kv rest ih =>
    obtain ⟨k', v'⟩ := kv
    by_cases hk : k' = name
    · subst hk
      have hb : (k == k') = false := by simpa using hne
      simp [List.filter, List.lookup, hb]
      simpa using ih
    · by_cases hkk : k = k'
      · subst hkk
        simp [List.filter, hk, List.lookup]
      · have hb : (k == k') = false := by simpa using hkk
        simp [List.filter, hk, List.lookup, hb]
        simpa using ih

theorem get?_set_ne (e : Env) (k name v : String) (hne : k ≠ name) :
    (e.set name v).get? k = e.get? k := by
  have hb : (k == name) = false := by simpa using hne
  simp only [Env.set, Env.get?, List.lookup, hb]
  exact lookup_filter_ne e k name hne

theorem Getenv_blank (environ : Environ) : os.Getenv environ "" = "" := by
  simp [os.Getenv]

theorem PromoteFromEnv_get?_blank (environ : Environ) (e : Env) (names : List String) :
    (Env.PromoteFromEnv environ e names).envs.get? "" = e.get? "" := by
  induction names generalizing e with
  | nil => rfl
  | cons name rest ih =>
    unfold Env.PromoteFromEnv
    split
    · exact ih e
    · rename_i hname
      have hne : ("" : String) ≠ name := by
        intro he
        apply hname
        rw [← he]
        exact Getenv_blank environ
      rw [ih, get?_set_ne e "" name _ hne]

/-! ## The invocation -/

/-- C1: after a successful setup, the one invocation `run` executes holds, in this order, the
bind mounts of the user mounts, the overlay of the repository root, the flag `-w=<repoRoot>`,
and it ends with the image, `runner.sh` and the extra arguments in the order given. -/
theorem run_invocation_order (h : Host) (image : String)
    (mounts mandatoryEnvVars optionalEnvVars extra : List String)
    (cmd : Docker) (defers : List CleanupAction) (tr : List Event) (repoRoot : String)
    (hs : setup h image mounts mandatoryEnvVars optionalEnvVars = SetupOutcome.ok cmd defers tr)
    (hr : h.rootDir = some repoRoot) :
    ∃ d, Event.exec d ∈ (run h cmd image extra).2 ∧
      (∀ d', Event.exec d' ∈ (run h cmd image extra).2 → d' = d) ∧
      ∃ mid rest, d.Args = h.preset.map ArgGroup.arg ++
        mounts.map (fun m => ArgGroup.mount ⟨"bind", m, m⟩) ++
        [ArgGroup.mount ⟨"rw-overlay", repoRoot, repoRoot⟩] ++ mid ++
        [ArgGroup.arg ("-w=" ++ repoRoot)] ++ rest ++
        [ArgGroup.arg image, ArgGroup.arg "runner.sh"] ++ extra.map ArgGroup.arg := by
  obtain ⟨tmpDir, root, -, hroot, -, hargs, -⟩ := setup_ok_inv hs
  have hrr : root = repoRoot := by rw [hroot] at hr; exact Option.some.inj hr
  subst hrr
  refine ⟨runCmd cmd image extra, by simp [run], ?_, ?_⟩
  · intro d' hd'
    simpa [run] using hd'
  · refine ⟨[ArgGroup.mount ⟨"rw-overlay", path.Join [os.Getenv h.environ "HOME", ".kube"],
        "/root/.kube"⟩],
      [ArgGroup.mount ⟨"bind", artifactsDir h.environ tmpDir, artifactsDir h.environ tmpDir⟩,
       ArgGroup.envs ((promoted h.environ mandatoryEnvVars optionalEnvVars).set "ARTIFACTS"
         (artifactsDir h.environ tmpDir))], ?_⟩
    simp [runCmd, Docker.AddArgs, hargs, setupTail]

/-- Witness of C1: the setup of `okHost` with the mount `/a/path`, run with `go test`. -/
theorem run_invocation_order_witness :
    setup okHost "img" ["/a/path"] ["GOOGLE_APPLICATION_CREDENTIALS"] [""] =
        SetupOutcome.ok okCmd okDefers (okTrace true) ∧
      okHost.rootDir = some "/home/u/repo" ∧
      ∃ d, Event.exec d ∈ (run okHost okCmd "img" ["go", "test"]).2 ∧
        (∀ d', Event.exec d' ∈ (run okHost okCmd "img" ["go", "test"]).2 → d' = d) ∧
        ∃ mid rest, d.Args = okHost.preset.map ArgGroup.arg ++
          ["/a/path"].map (fun m => ArgGroup.mount ⟨"bind", m, m⟩) ++
          [ArgGroup.mount ⟨"rw-overlay", "/home/u/repo", "/home/u/repo"⟩] ++ mid ++
          [ArgGroup.arg ("-w=" ++ "/home/u/repo")] ++ rest ++
          [ArgGroup.arg "img", ArgGroup.arg "runner.sh"] ++ ["go", "test"].map ArgGroup.arg :=
  ⟨okSetup_eq, rfl,
    run_invocation_order okHost "img" ["/a/path"] ["GOOGLE_APPLICATION_CREDENTIALS"] [""]
      ["go", "test"] okCmd okDefers (okTrace true) "/home/u/repo" okSetup_eq rfl⟩

/-- C9: for user mounts m1..mn the first n mount specifications of the invocation are exactly
(bind, m1, m1), ..., (bind, mn, mn), in the order given: none is dropped or reordered. -/
theorem user_mounts_first (h : Host) (image : String)
    (mounts mandatoryEnvVars optionalEnvVars : List String)
    (cmd : Docker) (defers : List CleanupAction) (tr : List Event)
    (hs : setup h image mounts mandatoryEnvVars optionalEnvVars = SetupOutcome.ok cmd defers tr) :
    cmd.mounts.take mounts.length = mounts.map (fun m => (⟨"bind", m, m⟩ : MountSpec)) := by
  obtain ⟨tmpDir, repoRoot, -, -, hm⟩ := setup_mounts hs
  rw [hm]
  simp [List.take_append_eq_append_take]

/-- Witness of C9: the setup of `okHost` with the mount `/a/path`. -/
theorem user_mounts_first_witness :
    setup okHost "img" ["/a/path"] ["GOOGLE_APPLICATION_CREDENTIALS"] [""] =
        SetupOutcome.ok okCmd okDefers (okTrace true) ∧
      okCmd.mounts.take ["/a/path"].length =
        ["/a/path"].map (fun m => (⟨"bind", m, m⟩ : MountSpec)) :=
  ⟨okSetup_eq, user_mounts_first okHost "img" ["/a/path"] ["GOOGLE_APPLICATION_CREDENTIALS"] [""]
    okCmd okDefers (okTrace true) okSetup_eq⟩

/-- C2: after a successful setup the invocation carries one environment map; it binds
ARTIFACTS to the host's ARTIFACTS value when that value is set (`os.Getenv` returns a non-empty
string) and to the run's temporary directory when it is not, and in both cases that path is a
bind mount of the invocation with that path as source and as destination. -/
theorem artifacts_bound_and_mounted (h : Host) (image : String)
    (mounts mandatoryEnvVars optionalEnvVars : List String)
    (cmd : Docker) (defers : List CleanupAction) (tr : List Event) (tmpDir : String)
    (hs : setup h image mounts mandatoryEnvVars optionalEnvVars = SetupOutcome.ok cmd defers tr)
    (ht : h.tempDir = some tmpDir) :
    ∃ e, cmd.envMaps = [e] ∧
      (os.Getenv h.environ "ARTIFACTS" ≠ "" →
        e.get? "ARTIFACTS" = some (os.Getenv h.environ "ARTIFACTS") ∧
        (⟨"bind", os.Getenv h.environ "ARTIFACTS", os.Getenv h.environ "ARTIFACTS"⟩ : MountSpec)
          ∈ cmd.mounts) ∧
      (os.Getenv h.environ "ARTIFACTS" = "" →
        e.get? "ARTIFACTS" = some tmpDir ∧
        (⟨"bind", tmpDir, tmpDir⟩ : MountSpec) ∈ cmd.mounts) := by
  obtain ⟨tmp, repoRoot, htmp, -, hm⟩ := setup_mounts hs
  obtain ⟨tmp2, root2, htmp2, -, -, hargs, -⟩ := setup_ok_inv hs
  have e1 : tmp = tmpDir := by rw [htmp] at ht; exact Option.some.inj ht
  have e2 : tmp2 = tmpDir := by rw [htmp2] at ht; exact Option.some.inj ht
  rw [e1] at hm
  rw [e2] at hargs
  refine ⟨(promoted h.environ mandatoryEnvVars optionalEnvVars).set "ARTIFACTS"
    (artifactsDir h.environ tmpDir), ?_, ?_, ?_⟩
  · simp [Docker.envMaps, hargs, setupTail, List.filterMap_append, List.filterMap_map,
      Function.comp_def, filterMap_const_none]
  · intro hset
    rw [hm, get?_set_self, artifactsDir_of_set tmpDir hset]
    simp
  · intro hunset
    rw [hm, get?_set_self, artifactsDir_of_unset tmpDir hunset]
    simp

/-- Witness of C2: on `okHost` ARTIFACTS is not set. -/
theorem artifacts_bound_and_mounted_witness :
    setup okHost "img" ["/a/path"] ["GOOGLE_APPLICATION_CREDENTIALS"] [""] =
        SetupOutcome.ok okCmd okDefers (okTrace true) ∧
      okHost.tempDir = some "/tmp/prow-docker.1" ∧
      ∃ e, okCmd.envMaps = [e] ∧
        (os.Getenv okHost.environ "ARTIFACTS" ≠ "" →
          e.get? "ARTIFACTS" = some (os.Getenv okHost.environ "ARTIFACTS") ∧
          (⟨"bind", os.Getenv okHost.environ "ARTIFACTS",
            os.Getenv okHost.environ "ARTIFACTS"⟩ : MountSpec) ∈ okCmd.mounts) ∧
        (os.Getenv okHost.environ "ARTIFACTS" = "" →
          e.get? "ARTIFACTS" = some "/tmp/prow-docker.1" ∧
          (⟨"bind", "/tmp/prow-docker.1", "/tmp/prow-docker.1"⟩ : MountSpec) ∈ okCmd.mounts) :=
  ⟨okSetup_eq, rfl,
    artifacts_bound_and_mounted okHost "img" ["/a/path"] ["GOOGLE_APPLICATION_CREDENTIALS"] [""]
      okCmd okDefers (okTrace true) "/tmp/prow-docker.1" okSetup_eq rfl⟩

/-! ## Fatal exits and cleanup -/

/-- C3: when a mandatory name is absent from the host environment (`os.Getenv` gives the empty
string for it), `setup` ends in the fatal error for missing mandatory variables, so the process
exits with status 1; it returns neither an invocation nor a cleanup function, and its only
effects are the lookups of the mandatory names: no temporary directory, no overlay, no pull. -/
theorem missing_mandatory_is_fatal (h : Host) (image : String)
    (mounts mandatoryEnvVars optionalEnvVars : List String)
    (hmiss : ∃ n ∈ mandatoryEnvVars, os.Getenv h.environ n = "") :
    (∃ missing, missing ≠ [] ∧
      setup h image mounts mandatoryEnvVars optionalEnvVars =
        SetupOutcome.fatal (FatalError.MissingMandatoryVariable missing)
          (Event.promote mandatoryEnvVars :: mandatoryEnvVars.map Event.getenv)) ∧
    (setup h image mounts mandatoryEnvVars optionalEnvVars).returned = none ∧
    (∀ ev ∈ (setup h image mounts mandatoryEnvVars optionalEnvVars).trace,
      (∀ dir, ev ≠ Event.tempDir dir) ∧ (∀ src dst, ev ≠ Event.overlay src dst) ∧
      (∀ img ok, ev ≠ Event.pull img ok)) ∧
    (∀ mountsFlag mandatoryFlag optionalFlag args,
      strings.Split mountsFlag ',' = mounts →
      strings.Split mandatoryFlag ',' = mandatoryEnvVars →
      strings.Split optionalFlag ',' = optionalEnvVars →
      (main h image mountsFlag mandatoryFlag optionalFlag args).exitCode = 1 ∧
      (main h image mountsFlag mandatoryFlag optionalFlag args).trace =
        Event.promote mandatoryEnvVars :: mandatoryEnvVars.map Event.getenv) := by
  obtain ⟨n, hn, hg⟩ := hmiss
  have hne : (Env.PromoteFromEnv h.environ [] mandatoryEnvVars).missing ≠ [] := by
    intro hnil
    have : n ∈ (Env.PromoteFromEnv h.environ [] mandatoryEnvVars).missing :=
      (PromoteFromEnv_missing_mem _ _ _ _).mpr ⟨hn, hg⟩
    rw [hnil] at this
    exact absurd this (List.not_mem_nil _)
  have hs := setup_fatal_of_missing h image mounts mandatoryEnvVars optionalEnvVars hne
  refine ⟨⟨_, hne, hs⟩, ?_, ?_, ?_⟩
  · rw [hs]; rfl
  · rw [hs]
    intro ev hev
    simp only [SetupOutcome.trace, List.mem_cons, List.mem_map] at hev
    rcases hev with rfl | ⟨a, -, rfl⟩
    · simp
    · simp
  · intro mountsFlag mandatoryFlag optionalFlag args h1 h2 h3
    unfold main
    rw [h1, h2, h3, hs]
    simp

/-- Witness of C3: the default mandatory name on a host without credentials. -/
theorem missing_mandatory_is_fatal_witness :
    (∃ n ∈ ["GOOGLE_APPLICATION_CREDENTIALS"], os.Getenv noCredentialsHost.environ n = "") ∧
    (setup noCredentialsHost "img" [""] ["GOOGLE_APPLICATION_CREDENTIALS"] [""]).returned = none ∧
    (main noCredentialsHost "img" defaultMounts defaultMandatoryEnvVars defaultOptionalEnvVars
      []).exitCode = 1 :=
  ⟨⟨"GOOGLE_APPLICATION_CREDENTIALS", by decide, by decide⟩,
    (missing_mandatory_is_fatal noCredentialsHost "img" [""] ["GOOGLE_APPLICATION_CREDENTIALS"] [""]
      ⟨"GOOGLE_APPLICATION_CREDENTIALS", by decide, by decide⟩).2.1,
    ((missing_mandatory_is_fatal noCredentialsHost "img" [""] ["GOOGLE_APPLICATION_CREDENTIALS"] [""]
      ⟨"GOOGLE_APPLICATION_CREDENTIALS", by decide, by decide⟩).2.2.2
        defaultMounts defaultMandatoryEnvVars defaultOptionalEnvVars []
        (by decide) (by decide) (by decide)).1⟩

/-- C5: after a successful setup, one call of the returned cleanup function, no action
panicking, calls exactly the registered actions, each once and in registration order: the
teardown of the repository-root overlay, the teardown of the kube-config overlay, the
artifacts message. -/
theorem cancel_calls_registered_in_order (h : Host) (image : String)
    (mounts mandatoryEnvVars optionalEnvVars : List String)
    (cmd : Docker) (defers : List CleanupAction) (tr : List Event) (tmpDir repoRoot : String)
    (panics : CleanupAction → Bool)
    (hs : setup h image mounts mandatoryEnvVars optionalEnvVars = SetupOutcome.ok cmd defers tr)
    (ht : h.tempDir = some tmpDir) (hr : h.rootDir = some repoRoot)
    (hp : ∀ a ∈ defers, panics a = false) :
    cancel panics defers =
      ([Event.cleanup (CleanupAction.overlayTeardown repoRoot repoRoot),
        Event.cleanup (CleanupAction.overlayTeardown
          (path.Join [os.Getenv h.environ "HOME", ".kube"]) "/root/.kube"),
        Event.cleanup (CleanupAction.artifactsMessage (artifactsDir h.environ tmpDir))],
       false) := by
  obtain ⟨tmp, root, htmp, hroot, -, -, hd, -⟩ := setup_ok_inv hs
  have e1 : tmp = tmpDir := by rw [htmp] at ht; exact Option.some.inj ht
  have e2 : root = repoRoot := by rw [hroot] at hr; exact Option.some.inj hr
  rw [e1, e2] at hd
  rw [hd] at hp ⊢
  simp only [List.mem_cons, List.mem_singleton, List.not_mem_nil, or_false, forall_eq_or_imp,
    forall_eq] at hp
  simp [cancel, hp.1, hp.2.1, hp.2.2]

/-- Witness of C5: the cleanup of `okHost`, where nothing panics. -/
theorem cancel_calls_registered_in_order_witness :
    cancel okHost.panics okDefers =
      ([Event.cleanup (CleanupAction.overlayTeardown "/home/u/repo" "/home/u/repo"),
        Event.cleanup (CleanupAction.overlayTeardown
          (path.Join [os.Getenv okHost.environ "HOME", ".kube"]) "/root/.kube"),
        Event.cleanup (CleanupAction.artifactsMessage
          (artifactsDir okHost.environ "/tmp/prow-docker.1"))],
       false) :=
  cancel_calls_registered_in_order okHost "img" ["/a/path"] ["GOOGLE_APPLICATION_CREDENTIALS"] [""]
    okCmd okDefers (okTrace true) "/tmp/prow-docker.1" "/home/u/repo" okHost.panics
    okSetup_eq rfl rfl (fun _ _ => rfl)

/-- C6, as stated, fails: on `panicHost` the teardown of the repository overlay panics, and the
artifacts message, registered after it and not panicking itself, is never called. -/
theorem later_cleanups_skipped_after_panic :
    setup panicHost "img" ["/a/path"] ["GOOGLE_APPLICATION_CREDENTIALS"] [""] =
        SetupOutcome.ok okCmd okDefers (okTrace true) ∧
      panicHost.panics (CleanupAction.overlayTeardown "/home/u/repo" "/home/u/repo") = true ∧
      CleanupAction.artifactsMessage "/tmp/prow-docker.1" ∈ okDefers ∧
      panicHost.panics (CleanupAction.artifactsMessage "/tmp/prow-docker.1") = false ∧
      Event.cleanup (CleanupAction.artifactsMessage "/tmp/prow-docker.1") ∉
        (cancel panicHost.panics okDefers).1 := by
  decide

/-- C6, amended: the cleanup function calls the registered actions in registration order and
stops at the first one that panics: the actions registered before it and the panicking one are
each called once, the actions registered after it are not called, and the panic leaves the loop. -/
theorem cancel_stops_at_first_panic (panics : CleanupAction → Bool)
    (before after : List CleanupAction) (a : CleanupAction)
    (hb : ∀ x ∈ before, panics x = false) (ha : panics a = true) :
    cancel panics (before ++ a :: after) = ((before ++ [a]).map Event.cleanup, true) := by
  induction before with
  | nil => simp [cancel, ha]
  | cons b rest ih =>
    have hb0 : panics b = false := hb b (List.mem_cons_self _ _)
    have ih' := ih (fun x hx => hb x (List.mem_cons_of_mem _ hx))
    simp [cancel, hb0, ih']

/-- Witness of the amended C6: the teardown of the kube-config overlay panics. -/
theorem cancel_stops_at_first_panic_witness :
    cancel (fun x => x = CleanupAction.overlayTeardown "/home/u/.kube" "/root/.kube")
        ([CleanupAction.overlayTeardown "/home/u/repo" "/home/u/repo"] ++
          CleanupAction.overlayTeardown "/home/u/.kube" "/root/.kube" ::
            [CleanupAction.artifactsMessage "/tmp/prow-docker.1"]) =
      (([CleanupAction.overlayTeardown "/home/u/repo" "/home/u/repo"] ++
        [CleanupAction.overlayTeardown "/home/u/.kube" "/root/.kube"]).map Event.cleanup, true) :=
  cancel_stops_at_first_panic
    (fun x => x = CleanupAction.overlayTeardown "/home/u/.kube" "/root/.kube")
    [CleanupAction.overlayTeardown "/home/u/repo" "/home/u/repo"]
    [CleanupAction.artifactsMessage "/tmp/prow-docker.1"]
    (CleanupAction.overlayTeardown "/home/u/.kube" "/root/.kube")
    (by decide) (by decide)

/-- C4 on a failing child: `run` returns the child's error unchanged, and `main`, which drops
that result, still ends with exit status 0. -/
theorem child_failure_exit_zero :
    setup failingChildHost "img" (strings.Split "/a/path" ',')
        (strings.Split defaultMandatoryEnvVars ',') (strings.Split defaultOptionalEnvVars ',') =
        SetupOutcome.ok okCmd okDefers (okTrace true) ∧
      failingChildHost.dockerRun (runCmd okCmd "img" ["go", "test"]) = some "exit status 1" ∧
      (run failingChildHost okCmd "img" ["go", "test"]).1 = some "exit status 1" ∧
      (main failingChildHost "img" "/a/path" defaultMandatoryEnvVars defaultOptionalEnvVars
        ["go", "test"]).exitCode = 0 := by
  decide

/-! ## Mount paths -/

/-- C8, as stated, fails: with the empty default of `--mounts` the split yields the blank name
and the invocation gets the mount (bind, "", ""); with `--mounts=rel/dir` it gets a mount whose
source and destination are the relative path `rel/dir`. -/
theorem mount_paths_not_always_absolute :
    ((setup okHost "img" (strings.Split defaultMounts ',')
        (strings.Split defaultMandatoryEnvVars ',')
        (strings.Split defaultOptionalEnvVars ',')).returned.map (fun r => r.1.mounts.head?)
      = some (some ⟨"bind", "", ""⟩)) ∧
    path.IsAbs "" = false ∧
    ((setup okHost "img" (strings.Split "rel/dir" ',')
        (strings.Split defaultMandatoryEnvVars ',')
        (strings.Split defaultOptionalEnvVars ',')).returned.map (fun r => r.1.mounts.head?)
      = some (some ⟨"bind", "rel/dir", "rel/dir"⟩)) ∧
    path.IsAbs "rel/dir" = false := by
  decide

/-- C8, amended: when every entry of `--mounts` is an absolute path, setup succeeds, the
temporary directory, the repository root and HOME are absolute and ARTIFACTS is unset or
absolute, every mount specification of the invocation has a non-empty absolute source and a
non-empty absolute destination. -/
theorem mount_paths_absolute (h : Host) (image mountsFlag : String)
    (mandatoryEnvVars optionalEnvVars : List String)
    (cmd : Docker) (defers : List CleanupAction) (tr : List Event) (tmpDir repoRoot : String)
    (hs : setup h image (strings.Split mountsFlag ',') mandatoryEnvVars optionalEnvVars =
      SetupOutcome.ok cmd defers tr)
    (ht : h.tempDir = some tmpDir) (hr : h.rootDir = some repoRoot)
    (hmounts : ∀ m ∈ strings.Split mountsFlag ',', path.IsAbs m = true)
    (htmp : path.IsAbs tmpDir = true) (hroot : path.IsAbs repoRoot = true)
    (hhome : path.IsAbs (os.Getenv h.environ "HOME") = true)
    (hart : os.Getenv h.environ "ARTIFACTS" = "" ∨
      path.IsAbs (os.Getenv h.environ "ARTIFACTS") = true) :
    ∀ m ∈ cmd.mounts, (m.source ≠ "" ∧ path.IsAbs m.source = true) ∧
      (m.destination ≠ "" ∧ path.IsAbs m.destination = true) := by
  obtain ⟨tmp, root, htmp', hroot', hm⟩ := setup_mounts hs
  have e1 : tmp = tmpDir := by rw [htmp'] at ht; exact Option.some.inj ht
  have e2 : root = repoRoot := by rw [hroot'] at hr; exact Option.some.inj hr
  rw [e1, e2] at hm
  have habs : ∀ p, path.IsAbs p = true → p ≠ "" ∧ path.IsAbs p = true :=
    fun p hp => ⟨IsAbs_ne_empty p hp, hp⟩
  have hA : path.IsAbs (artifactsDir h.environ tmpDir) = true := by
    rcases hart with hu | hset
    · rw [artifactsDir_of_unset tmpDir hu]; exact htmp
    · by_cases hu : os.Getenv h.environ "ARTIFACTS" = ""
      · rw [artifactsDir_of_unset tmpDir hu]; exact htmp
      · rw [artifactsDir_of_set tmpDir hu]; exact hset
  intro m hmem
  rw [hm] at hmem
  simp only [List.mem_append, List.mem_map, List.mem_cons, List.mem_singleton,
    List.not_mem_nil, or_false] at hmem
  rcases hmem with ⟨x, hx, rfl⟩ | rfl | rfl | rfl
  · exact ⟨habs x (hmounts x hx), habs x (hmounts x hx)⟩
  · exact ⟨habs _ hroot, habs _ hroot⟩
  · exact ⟨habs _ (Join_kube_IsAbs _ hhome), habs "/root/.kube" (by decide)⟩
  · exact ⟨habs _ hA, habs _ hA⟩

/-- Witness of the amended C8: `okHost` with `--mounts=/a/path`. -/
theorem mount_paths_absolute_witness :
    setup okHost "img" (strings.Split "/a/path" ',') ["GOOGLE_APPLICATION_CREDENTIALS"] [""] =
        SetupOutcome.ok okCmd okDefers (okTrace true) ∧
      ∀ m ∈ okCmd.mounts, (m.source ≠ "" ∧ path.IsAbs m.source = true) ∧
        (m.destination ≠ "" ∧ path.IsAbs m.destination = true) :=
  ⟨by decide,
    mount_paths_absolute okHost "img" "/a/path" ["GOOGLE_APPLICATION_CREDENTIALS"] [""]
      okCmd okDefers (okTrace true) "/tmp/prow-docker.1" "/home/u/repo"
      (by decide) rfl rfl (by decide) (by decide) (by decide) (by decide) (by decide)⟩

/-! ## Blank names -/

theorem promoted_get?_blank (environ : Environ) (mandatoryEnvVars optionalEnvVars : List String) :
    (promoted environ mandatoryEnvVars optionalEnvVars).get? "" = none := by
  unfold promoted
  rw [PromoteFromEnv_get?_blank, PromoteFromEnv_get?_blank]
  rfl

theorem main_calls_binder_with_split (h : Host)
    (image mountsFlag mandatoryFlag optionalFlag : String) (args : List String) :
    (main h image mountsFlag mandatoryFlag optionalFlag args).trace.head? =
      some (Event.promote (strings.Split mandatoryFlag ',')) := by
  unfold main
  cases hs : setup h image (strings.Split mountsFlag ',') (strings.Split mandatoryFlag ',')
      (strings.Split optionalFlag ',') with
  | fatal err t =>
    have ht : t.head? = some (Event.promote (strings.Split mandatoryFlag ',')) := by
      unfold setup at hs
      simp only [Docker.AddRWOverlay, ioutil.TempDir, helpers.GetRootDir] at hs
      repeat' split at hs
      all_goals simp_all
      all_goals (obtain ⟨-, rfl⟩ := hs; simp)
    simpa using ht
  | ok cmd defers t =>
    have ht : t.head? = some (Event.promote (strings.Split mandatoryFlag ',')) := by
      unfold setup at hs
      simp only [Docker.AddRWOverlay, ioutil.TempDir, helpers.GetRootDir] at hs
      repeat' split at hs
      all_goals simp_all
      all_goals (obtain ⟨-, -, rfl⟩ := hs; simp)
    cases t with
    | nil => simp at ht
    | cons e t => simpa using ht

/-- C7 at the failing inputs. With the empty default of `--optional-env-vars` the split yields
the blank name; `main` hands it to the binder unfiltered, and the binder looks it up in the host
environment (and binds nothing for it). With an empty `--mandatory-env-vars` the blank name is
handed to the binder as well, is reported missing, and the process ends with status 1 although
no variable was named. -/
theorem blank_name_reaches_binder :
    strings.Split defaultOptionalEnvVars ',' = [""] ∧
    Event.promote [""] ∈ (main okHost "img" "/a/path" defaultMandatoryEnvVars
      defaultOptionalEnvVars []).trace ∧
    (Env.PromoteFromEnv okHost.environ [] [""]).lookups = [""] ∧
    (Env.PromoteFromEnv okHost.environ [] [""]).envs = [] ∧
    Event.getenv "" ∈ (main okHost "img" "/a/path" defaultMandatoryEnvVars
      defaultOptionalEnvVars []).trace ∧
    main okHost "img" "/a/path" "" defaultOptionalEnvVars [] =
      { exitCode := 1, trace := [Event.promote [""], Event.getenv ""] } := by
  decide

/-! ## Image pull -/

/-- C10: a failing image pull is not fatal. When setup succeeds with a successful pull, it
succeeds with a failing pull too and returns the same invocation and the same cleanup actions;
the failed pull was issued, and `main` goes on to execute the invocation. -/
theorem pull_failure_not_fatal (h : Host) (image : String)
    (mounts mandatoryEnvVars optionalEnvVars : List String)
    (cmd : Docker) (defers : List CleanupAction) (tr : List Event)
    (hs : setup { h with pullOk := true } image mounts mandatoryEnvVars optionalEnvVars =
      SetupOutcome.ok cmd defers tr) :
    (∃ tr', setup { h with pullOk := false } image mounts mandatoryEnvVars optionalEnvVars =
        SetupOutcome.ok cmd defers tr' ∧ Event.pull image false ∈ tr') ∧
    (∀ mountsFlag mandatoryFlag optionalFlag args,
      strings.Split mountsFlag ',' = mounts →
      strings.Split mandatoryFlag ',' = mandatoryEnvVars →
      strings.Split optionalFlag ',' = optionalEnvVars →
      Event.exec (runCmd cmd image args) ∈
        (main { h with pullOk := false } image mountsFlag mandatoryFlag optionalFlag args).trace) := by
  have hret : (setup { h with pullOk := false } image mounts mandatoryEnvVars
      optionalEnvVars).returned = some (cmd, defers) := by
    rw [setup_returned_pull h false, ← setup_returned_pull h true, hs]
    rfl
  have hok : ∃ tr', setup { h with pullOk := false } image mounts mandatoryEnvVars
      optionalEnvVars = SetupOutcome.ok cmd defers tr' := by
    cases hc : setup { h with pullOk := false } image mounts mandatoryEnvVars optionalEnvVars with
    | fatal err t => rw [hc] at hret; exact absurd hret (by simp [SetupOutcome.returned])
    | ok c d t =>
      rw [hc] at hret
      simp only [SetupOutcome.returned, Option.some.injEq, Prod.mk.injEq] at hret
      exact ⟨t, by rw [hret.1, hret.2]⟩
  obtain ⟨tr', htr'⟩ := hok
  have hpull : Event.pull image false ∈ tr' := by
    obtain ⟨_, _, -, -, -, -, -, -, -, hp, -⟩ := setup_ok_inv htr'
    exact hp
  refine ⟨⟨tr', htr', hpull⟩, ?_⟩
  intro mountsFlag mandatoryFlag optionalFlag args h1 h2 h3
  unfold main
  rw [h1, h2, h3, htr']
  simp [run]

/-- Witness of C10: `okHost`, whose pull succeeds, against the same host with a failing pull. -/
theorem pull_failure_not_fatal_witness :
    setup { okHost with pullOk := true } "img" ["/a/path"] ["GOOGLE_APPLICATION_CREDENTIALS"] [""] =
        SetupOutcome.ok okCmd okDefers (okTrace true) ∧
      (∃ tr', setup { okHost with pullOk := false } "img" ["/a/path"]
          ["GOOGLE_APPLICATION_CREDENTIALS"] [""] = SetupOutcome.ok okCmd okDefers tr' ∧
        Event.pull "img" false ∈ tr') ∧
      Event.exec (runCmd okCmd "img" ["go", "test"]) ∈
        (main { okHost with pullOk := false } "img" "/a/path" defaultMandatoryEnvVars
          defaultOptionalEnvVars ["go", "test"]).trace :=
  ⟨by decide,
    (pull_failure_not_fatal okHost "img" ["/a/path"] ["GOOGLE_APPLICATION_CREDENTIALS"] [""]
      okCmd okDefers (okTrace true) (by decide)).1,
    (pull_failure_not_fatal okHost "img" ["/a/path"] ["GOOGLE_APPLICATION_CREDENTIALS"] [""]
      okCmd okDefers (okTrace true) (by decide)).2 "/a/path" defaultMandatoryEnvVars
      defaultOptionalEnvVars ["go", "test"] (by decide) (by decide) (by decide)⟩

end rundk
